import Mathlib

/-!
Verification model of the OAuth facade / MCP session subsystem of
sargonpiraev/hh-mcp-server (`src/main.ts`).

Modelling conventions (shallow embedding of the TypeScript source):

* The two module-level registries of `main.ts` —
  `const sessions = new Map<string, Record<string, unknown>>()` and
  `const transports: { [sessionId: string]: StreamableHTTPServerTransport }`
  — are modelled as association lists with JS `Map` semantics
  (`set` replaces in place, `delete` removes, `get`/`has` look up).
* `crypto.randomUUID()` is modelled as an injective supply `uuid : Nat -> String`
  drawn from a counter carried in the server state.  Injectivity models the
  no-collision guarantee of a cryptographically random UUID.  Real UUIDs are
  hex-and-dash strings whose second character is a hex digit, so a UUID can
  never equal a string starting with the literal prefix `auth_` (whose second
  character is the letter u); the model's `uuid` outputs therefore start with
  the hex letter f.
* URLs (`new URL(s)` plus `searchParams.set` plus `toString()`) are modelled
  structurally as a base string plus an ordered query-parameter list, with
  `searchParams.set` semantics (replace the first occurrence in place, drop
  later duplicates, else append).  URL strings are assumed canonical; URL
  normalisation is outside the model.
* JSON request bodies are modelled by the inductive `JVal` with JavaScript
  truthiness.  Request bodies are modelled as objects with optional fields
  (an absent field is `none`, i.e. `undefined`); non-object bodies raise at
  destructuring and take the catch-all error path, outside these claims.
* The upstream identity endpoint used by `requireAuth` is modelled as a
  boolean acceptance predicate on tokens; the network-failure 500 path of
  `requireAuth` is outside these claims.  The upstream token `fetch` in
  `/oauth/token` is modelled by returning the prepared upstream request.
* Express responses are modelled as inductive results carrying exactly the
  data the handler writes (status code via a status function, redirect
  location, response headers such as `WWW-Authenticate` and
  `Mcp-Session-Id`).
-/

namespace HHMcp

/-! ### Association-list maps with JS `Map` semantics -/

/-- Look up a key, returning the first bound value (`Map.get`). -/
def lookupA {α : Type} : List (String × α) → String → Option α
  | [], _ => none
  | (k', v) :: rest, k => if k' = k then some v else lookupA rest k

/-- Bind a key to a value: replace in place if present, else append (`Map.set`). -/
def setA {α : Type} : List (String × α) → String → α → List (String × α)
  | [], k, v => [(k, v)]
  | (k', v') :: rest, k, v =>
      if k' = k then (k, v) :: rest else (k', v') :: setA rest k v

/-- Remove every binding of a key (`Map.delete`). -/
def eraseA {α : Type} : List (String × α) → String → List (String × α)
  | [], _ => []
  | (k', v') :: rest, k => if k' = k then eraseA rest k else (k', v') :: eraseA rest k

/-! ### Generated identifiers -/

/-- Model of `crypto.randomUUID()`: the n-th fresh identifier.  The first
character is the hex letter f, matching the shape constraint that a real
UUID is hex-and-dash and hence never carries the prefix `auth_`. -/
def uuid (n : Nat) : String :=
  ⟨'f' :: List.replicate n 'e'⟩

/-- Model of the state key `auth_${crypto.randomUUID()}` built at
`/oauth/authorize`. -/
def authKeyStr (n : Nat) : String :=
  "auth_" ++ uuid n

/-! ### URLs -/

/-- A URL modelled as a canonical base plus an ordered query-parameter list. -/
structure Url where
  base : String
  params : List (String × String)
deriving DecidableEq, Repr

/-- Model of `URLSearchParams.set`: replace the first occurrence in place,
drop later duplicates, else append at the end. -/
def setParam : List (String × String) → String → String → List (String × String)
  | [], k, v => [(k, v)]
  | (k', v') :: rest, k, v =>
      if k' = k then (k, v) :: eraseA rest k else (k', v') :: setParam rest k v

/-! ### JSON values and JavaScript truthiness -/

/-- JSON values as delivered by `express.json()`. -/
inductive JVal where
  | str (s : String)
  | num (n : Int)
  | bool (b : Bool)
  | arr (xs : List JVal)
  | null

/-- JavaScript truthiness of a JSON value. -/
def truthyJ : JVal → Bool
  | .str s => !(s == "")
  | .num n => !(n == 0)
  | .bool b => b
  | .arr _ => true
  | .null => false

/-- Truthiness of a possibly absent (`undefined`) JSON field. -/
def truthyJO : Option JVal → Bool
  | none => false
  | some v => truthyJ v

/-- Truthiness of a possibly absent string (query parameter / header value). -/
def truthyO : Option String → Bool
  | none => false
  | some s => !(s == "")

/-- The check `!redirect_uris || !Array.isArray(redirect_uris) ||
redirect_uris.length === 0`, folded into one predicate (arrays are always
truthy in JS, so the three disjuncts reject exactly the non-nonempty-arrays). -/
def isNonemptyArr : Option JVal → Bool
  | some (.arr (_ :: _)) => true
  | _ => false

/-! ### Environment and server state -/

/-- The environment variables consumed by `main.ts` (all parsed as strings;
zod requires their presence but allows empty strings). -/
structure Env where
  HOST : String
  PORT : String
  HH_CLIENT_ID : String
  HH_CLIENT_SECRET : String
  HH_REDIRECT_URI : String
  HH_USER_AGENT : String
deriving DecidableEq, Repr

/-- The string `http://${env.HOST}:${env.PORT}`. -/
def baseUrl (env : Env) : String :=
  "http://" ++ env.HOST ++ ":" ++ env.PORT

/-- The redirect URI the facade uses with the upstream provider:
`env.HH_REDIRECT_URI || http://HOST:PORT/oauth/callback/debug`. -/
def configuredRedirectUri (env : Env) : String :=
  if env.HH_REDIRECT_URI = "" then baseUrl env ++ "/oauth/callback/debug"
  else env.HH_REDIRECT_URI

/-- A pending authorization stored by `/oauth/authorize` (the record literal
at `sessions.set(stateKey, {...})`). -/
structure PendingAuth where
  originalRedirectUri : Url
  originalState : Option String
  clientId : String
  codeChallenge : Option String
  codeChallengeMethod : String
  createdAt : Nat
deriving DecidableEq, Repr

/-- An MCP session record created by `getOrCreateSession`. -/
structure McpSession where
  id : String
  createdAt : Nat
  lastAccessAt : Nat
deriving DecidableEq, Repr

/-- A value of the shared `sessions` map: either a pending authorization or an
MCP session record.  `getOrCreateSession` writes a `lastAccessAt` field into
whatever record it finds, so pending-authorization entries carry an optional
`lastAccessAt` slot (absent until such a write happens). -/
inductive SessionValue where
  | pending (p : PendingAuth) (lastAccessAt : Option Nat)
  | mcp (m : McpSession)
deriving DecidableEq, Repr

/-- The mutable module-level state of `main.ts`: the shared `sessions` map,
the `transports` registry (values modelled by their creation index), and the
fresh-identifier counter. -/
structure ServerState where
  sessions : List (String × SessionValue)
  transports : List (String × Nat)
  ctr : Nat
deriving DecidableEq, Repr

/-- The state at process start: both registries empty. -/
def initState : ServerState :=
  { sessions := [], transports := [], ctr := 0 }

/-! ### `POST /oauth/register` -/

/-- The destructured fields of the `/oauth/register` request body
(`undefined` fields are `none`). -/
structure RegisterBody where
  client_name : Option JVal
  grant_types : Option JVal
  response_types : Option JVal
  redirect_uris : Option JVal
  scope : Option JVal

/-- The outcome of `POST /oauth/register`. -/
inductive RegisterResult where
  | invalidClientMetadata
  | invalidRedirectUri
  | notConfigured
  | ok (client_id : String) (client_name : JVal) (grant_types : JVal)
       (response_types : JVal) (redirect_uris : JVal) (scope : JVal)

/-- HTTP status written for each `RegisterResult` (`res.json` defaults to 200). -/
def registerStatus : RegisterResult → Nat
  | .invalidClientMetadata => 400
  | .invalidRedirectUri => 400
  | .notConfigured => 503
  | .ok _ _ _ _ _ _ => 200

/-- The `client_id` field of the JSON response, when one is present. -/
def regClientId : RegisterResult → Option String
  | .ok cid _ _ _ _ _ => some cid
  | _ => none

/-- The `redirect_uris` field of the JSON response, when one is present. -/
def regRedirectUris : RegisterResult → Option JVal
  | .ok _ _ _ _ ru _ => some ru
  | _ => none

/-- Handler of `POST /oauth/register` (`app.post('/oauth/register', ...)`):
validate `client_name` (JS truthiness) and `redirect_uris` (non-empty array),
check that `env.HH_CLIENT_ID` is truthy, then echo the caller's metadata with
the statically configured client id.  Destructuring defaults
(`grant_types = ['authorization_code']`, `response_types = ['code']`,
`scope = ''`) apply exactly when the field is `undefined`. -/
def oauthRegister (env : Env) (b : RegisterBody) : RegisterResult :=
  if !truthyJO b.client_name then .invalidClientMetadata
  else if !isNonemptyArr b.redirect_uris then .invalidRedirectUri
  else if env.HH_CLIENT_ID = "" then .notConfigured
  else
    .ok env.HH_CLIENT_ID
      (b.client_name.getD .null)
      (b.grant_types.getD (.arr [.str "authorization_code"]))
      (b.response_types.getD (.arr [.str "code"]))
      (b.redirect_uris.getD .null)
      (b.scope.getD (.str ""))

/-! ### `GET /oauth/authorize` -/

/-- The query parameters read by `/oauth/authorize`.  A query parameter is
`none` when absent.  `redirect_uri` is modelled structurally as a `Url`; a
present-but-empty `redirect_uri` (JS-falsy, rejected identically to an absent
one) is folded into `none`. -/
structure AuthorizeQuery where
  client_id : Option String
  redirect_uri : Option Url
  state : Option String
  code_challenge : Option String
  code_challenge_method : Option String

/-- The outcome of `GET /oauth/authorize`. -/
inductive AuthorizeResult where
  | invalidRequest
  | redirect (u : Url)
deriving DecidableEq, Repr

/-- HTTP status of each `AuthorizeResult` (`res.redirect` defaults to 302). -/
def authorizeStatus : AuthorizeResult → Nat
  | .invalidRequest => 400
  | .redirect _ => 302

/-- Handler of `GET /oauth/authorize`: validate `client_id`/`redirect_uri`
presence, store a `PendingAuth` under a fresh `auth_`-prefixed state key, and
redirect to the upstream authorization URL carrying that state key. -/
def oauthAuthorize (env : Env) (q : AuthorizeQuery) (t : Nat) (st : ServerState) :
    AuthorizeResult × ServerState :=
  match q.redirect_uri, truthyO q.client_id with
  | some r, true =>
      let stateKey := authKeyStr st.ctr
      let entry : SessionValue := .pending
        { originalRedirectUri := r
          originalState := q.state
          clientId := q.client_id.getD ""
          codeChallenge := q.code_challenge
          codeChallengeMethod := q.code_challenge_method.getD "S256"
          createdAt := t } none
      let hhAuthUrl : Url :=
        { base := "https://hh.ru/oauth/authorize"
          params := setParam (setParam (setParam (setParam []
            "client_id" env.HH_CLIENT_ID)
            "response_type" "code")
            "redirect_uri" (configuredRedirectUri env))
            "state" stateKey }
      (.redirect hhAuthUrl,
        { st with sessions := setA st.sessions stateKey entry, ctr := st.ctr + 1 })
  | _, _ => (.invalidRequest, st)

/-! ### `POST /oauth/token` -/

/-- The urlencoded body fields read by `/oauth/token`. -/
structure TokenBody where
  grant_type : Option String
  client_id : Option String
  code : Option String
  redirect_uri : Option String
  code_verifier : Option String

/-- The form body the facade prepares for the upstream token endpoint
(`new URLSearchParams({...})` plus the conditional `code_verifier`). -/
structure UpstreamTokenRequest where
  grant_type : String
  client_id : String
  client_secret : String
  code : String
  redirect_uri : String
  code_verifier : Option String
deriving DecidableEq, Repr

/-- The outcome of `POST /oauth/token`, up to the upstream exchange: either
parameter validation fails with 400 `invalid_request`, or the handler reaches
the upstream `fetch` with the prepared request body. -/
inductive TokenResult where
  | invalidRequest
  | exchange (r : UpstreamTokenRequest)
deriving DecidableEq, Repr

/-- Handler of `POST /oauth/token` up to the upstream call: validate the
parameters, then build the upstream request from the configured credentials
and the configured redirect URI. -/
def oauthToken (env : Env) (b : TokenBody) : TokenResult :=
  if !(b.grant_type == some "authorization_code") || !truthyO b.client_id
      || !truthyO b.code || !truthyO b.redirect_uri then
    .invalidRequest
  else
    .exchange
      { grant_type := "authorization_code"
        client_id := env.HH_CLIENT_ID
        client_secret := env.HH_CLIENT_SECRET
        code := b.code.getD ""
        redirect_uri := configuredRedirectUri env
        code_verifier := if truthyO b.code_verifier then b.code_verifier else none }

/-! ### `GET /oauth/callback/debug` (proxy callback) -/

/-- The query parameters read by the proxy callback. -/
structure CallbackQuery where
  code : Option String
  state : Option String
  error : Option String
  error_description : Option String

/-- The outcome of the proxy callback.  `serverError` is the 500 produced when
the stored entry is an MCP session record, whose `originalRedirectUri` is
`undefined`: `new URL(undefined)` throws after the entry was already deleted. -/
inductive CallbackResult where
  | upstreamError (e : Option String) (d : Option String)
  | invalidRequest
  | invalidState
  | serverError
  | redirect (u : Url)
deriving DecidableEq, Repr

/-- HTTP status of each `CallbackResult`. -/
def callbackStatus : CallbackResult → Nat
  | .upstreamError _ _ => 400
  | .invalidRequest => 400
  | .invalidState => 400
  | .serverError => 500
  | .redirect _ => 302

/-- Handler of `GET /oauth/callback/debug`: propagate upstream errors, check
`code`/`state` presence, look the state up in the shared map, delete the entry
and redirect to the stored original redirect URI with `code` and (when the
stored original state is truthy) `state`. -/
def oauthCallback (q : CallbackQuery) (st : ServerState) :
    CallbackResult × ServerState :=
  if truthyO q.error then (.upstreamError q.error q.error_description, st)
  else if !truthyO q.code || !truthyO q.state then (.invalidRequest, st)
  else
    let k := q.state.getD ""
    match lookupA st.sessions k with
    | none => (.invalidState, st)
    | some (.mcp _) => (.serverError, { st with sessions := eraseA st.sessions k })
    | some (.pending p _) =>
        let loc0 : Url :=
          { p.originalRedirectUri with
              params := setParam p.originalRedirectUri.params "code" (q.code.getD "") }
        let loc : Url :=
          if truthyO p.originalState then
            { loc0 with params := setParam loc0.params "state" (p.originalState.getD "") }
          else loc0
        (.redirect loc, { st with sessions := eraseA st.sessions k })

/-! ### `requireAuth` middleware -/

/-- The character list of the literal `"Bearer "` tested by
`authHeader.startsWith('Bearer ')`. -/
def bearerChars : List Char :=
  'B' :: 'e' :: 'a' :: 'r' :: 'e' :: 'r' :: ' ' :: []

/-- The `WWW-Authenticate` challenge written on a missing/malformed
`Authorization` header, pointing at the protected-resource metadata URL. -/
def challengeHeader (env : Env) : String :=
  "Bearer realm=\"MCP Server\", resource=\"" ++ baseUrl env
    ++ "/.well-known/oauth-protected-resource\""

/-- The `WWW-Authenticate` challenge written when the upstream identity
endpoint rejects the token. -/
def challengeHeaderInvalid (env : Env) : String :=
  "Bearer realm=\"MCP Server\", resource=\"" ++ baseUrl env
    ++ "/.well-known/oauth-protected-resource\", error=\"invalid_token\""

/-- The outcome of the `requireAuth` middleware: a 401 rejection carrying the
`WWW-Authenticate` header value it sets (or `none` when the empty-token branch
sets no such header), or acceptance with the validated token. -/
inductive AuthOutcome where
  | unauthorized (wwwAuthenticate : Option String)
  | ok (token : String)
deriving DecidableEq, Repr

/-- The `requireAuth` middleware.  `accept` models the upstream identity
endpoint (`GET https://api.hh.ru/me`) as a predicate on bearer tokens.
`authHeader.substring(7)` is modelled on the character list. -/
def requireAuth (env : Env) (accept : String → Bool) (authHeader : Option String) :
    AuthOutcome :=
  match authHeader with
  | none => .unauthorized (some (challengeHeader env))
  | some h =>
      if bearerChars.isPrefixOf h.data then
        let token : String := ⟨h.data.drop 7⟩
        if token = "" then .unauthorized none
        else if accept token then .ok token
        else .unauthorized (some (challengeHeaderInvalid env))
      else .unauthorized (some (challengeHeader env))

/-! ### `/mcp` endpoints -/

/-- Update applied by `getOrCreateSession` to an existing entry:
`session.lastAccessAt = new Date()` on whatever record is stored. -/
def refreshEntry : SessionValue → Nat → SessionValue
  | .mcp m, t => .mcp { m with lastAccessAt := t }
  | .pending p _, t => .pending p (some t)

/-- The `getOrCreateSession` helper: adopt a truthy header naming an existing
entry (refreshing its `lastAccessAt`), otherwise mint a fresh UUID and store a
new session record under it. -/
def getOrCreateSession (hdr : Option String) (t : Nat) (st : ServerState) :
    String × ServerState :=
  if truthyO hdr ∧ (lookupA st.sessions (hdr.getD "")).isSome then
    match lookupA st.sessions (hdr.getD "") with
    | some v =>
        (hdr.getD "",
          { st with sessions := setA st.sessions (hdr.getD "") (refreshEntry v t) })
    | none => (hdr.getD "", st)
  else
    (uuid st.ctr,
      { st with
          sessions := setA st.sessions (uuid st.ctr)
            (.mcp { id := uuid st.ctr, createdAt := t, lastAccessAt := t })
          ctr := st.ctr + 1 })

/-- The outcome of `POST /mcp`.  `routed`/`initialized` responses are produced
by the transport (`transport.handleRequest`), modelled opaquely. -/
inductive McpPostResult where
  | unauthorized (wwwAuthenticate : Option String)
  | routed (sid : String)
  | initialized (sid : String)
  | badRequest
deriving DecidableEq, Repr

/-- HTTP status of each `McpPostResult` (transport-handled responses are
modelled as 200). -/
def mcpPostStatus : McpPostResult → Nat
  | .unauthorized _ => 401
  | .routed _ => 200
  | .initialized _ => 200
  | .badRequest => 400

/-- The outcome of `GET /mcp`: a 401 rejection, or the 200 SSE stream response
whose `Mcp-Session-Id` response header carries `sid`. -/
inductive McpGetResult where
  | unauthorized (wwwAuthenticate : Option String)
  | stream (sid : String)
deriving DecidableEq, Repr

/-- HTTP status of each `McpGetResult`. -/
def mcpGetStatus : McpGetResult → Nat
  | .unauthorized _ => 401
  | .stream _ => 200

/-- The outcome of `DELETE /mcp`. -/
inductive McpDeleteResult where
  | unauthorized (wwwAuthenticate : Option String)
  | terminated
  | notFound
deriving DecidableEq, Repr

/-- HTTP status of each `McpDeleteResult`. -/
def mcpDeleteStatus : McpDeleteResult → Nat
  | .unauthorized _ => 401
  | .terminated => 200
  | .notFound => 404

/-- Handler of `POST /mcp`: `requireAuth`, then route to an existing transport
when the header names one, create and register a fresh transport on an
initialize request without a session header, and reject everything else with
the JSON-RPC 400 error. -/
def mcpPost (env : Env) (accept : String → Bool) (authHeader hdr : Option String)
    (isInit : Bool) (st : ServerState) : McpPostResult × ServerState :=
  match requireAuth env accept authHeader with
  | .unauthorized w => (.unauthorized w, st)
  | .ok _ =>
      if truthyO hdr ∧ (lookupA st.transports (hdr.getD "")).isSome then
        (.routed (hdr.getD ""), st)
      else if !truthyO hdr ∧ isInit then
        let sid := uuid st.ctr
        (.initialized sid,
          { st with transports := setA st.transports sid st.ctr, ctr := st.ctr + 1 })
      else (.badRequest, st)

/-- Handler of `GET /mcp`: `requireAuth`, then `getOrCreateSession` and the
200 SSE response carrying the session id. -/
def mcpGet (env : Env) (accept : String → Bool) (authHeader hdr : Option String)
    (t : Nat) (st : ServerState) : McpGetResult × ServerState :=
  match requireAuth env accept authHeader with
  | .unauthorized w => (.unauthorized w, st)
  | .ok _ =>
      let r := getOrCreateSession hdr t st
      (.stream r.1, r.2)

/-- Handler of `DELETE /mcp`: `requireAuth`, then delete the entry the header
names from the shared `sessions` map (404 when the header is falsy or names no
entry). -/
def mcpDelete (env : Env) (accept : String → Bool) (authHeader hdr : Option String)
    (st : ServerState) : McpDeleteResult × ServerState :=
  match requireAuth env accept authHeader with
  | .unauthorized w => (.unauthorized w, st)
  | .ok _ =>
      if truthyO hdr ∧ (lookupA st.sessions (hdr.getD "")).isSome then
        (.terminated, { st with sessions := eraseA st.sessions (hdr.getD "") })
      else (.notFound, st)

/-! ### Request sequences over the shared state -/

/-- One inbound request to a state-touching endpoint. -/
inductive Req where
  | authorize (q : AuthorizeQuery) (t : Nat)
  | callback (q : CallbackQuery)
  | post (ah hdr : Option String) (isInit : Bool)
  | get (ah hdr : Option String) (t : Nat)
  | del (ah hdr : Option String)

/-- The state transition performed by one request. -/
def step (env : Env) (accept : String → Bool) (st : ServerState) : Req → ServerState
  | .authorize q t => (oauthAuthorize env q t st).2
  | .callback q => (oauthCallback q st).2
  | .post ah hdr i => (mcpPost env accept ah hdr i st).2
  | .get ah hdr t => (mcpGet env accept ah hdr t st).2
  | .del ah hdr => (mcpDelete env accept ah hdr st).2

/-- The state after a sequence of requests. -/
def exec (env : Env) (accept : String → Bool) (st : ServerState) : List Req → ServerState
  | [] => st
  | r :: rs => exec env accept (step env accept st r) rs

/-! ### Lemmas about the map operations -/

theorem lookupA_setA_self {α : Type} (m : List (String × α)) (k : String) (v : α) :
    lookupA (setA m k v) k = some v := by
  induction m with
  | nil => simp [setA, lookupA]
  | cons kv rest ih =>
      obtain ⟨k', v'⟩ := kv
      by_cases h : k' = k
      · simp [setA, h, lookupA]
      · simp [setA, h, lookupA, ih]

theorem lookupA_setA_ne {α : Type} (m : List (String × α)) {k₁ k₂ : String} (v : α)
    (hne : k₁ ≠ k₂) : lookupA (setA m k₁ v) k₂ = lookupA m k₂ := by
  induction m with
  | nil => simp [setA, lookupA, hne]
  | cons kv rest ih =>
      obtain ⟨k', v'⟩ := kv
      by_cases h : k' = k₁
      · simp [setA, h, lookupA, hne]
      · simp [setA, h, lookupA, ih]

theorem lookupA_eraseA_self {α : Type} (m : List (String × α)) (k : String) :
    lookupA (eraseA m k) k = none := by
  induction m with
  | nil => simp [eraseA, lookupA]
  | cons kv rest ih =>
      obtain ⟨k', v'⟩ := kv
      by_cases h : k' = k
      · simpa [eraseA, h] using ih
      · simpa [eraseA, lookupA, h] using ih

theorem lookupA_eraseA_ne {α : Type} (m : List (String × α)) {k₁ k₂ : String}
    (hne : k₁ ≠ k₂) : lookupA (eraseA m k₁) k₂ = lookupA m k₂ := by
  induction m with
  | nil => simp [eraseA, lookupA]
  | cons kv rest ih =>
      obtain ⟨k', v'⟩ := kv
      by_cases h : k' = k₁
      · simpa [eraseA, h, lookupA, hne] using ih
      · by_cases h2 : k' = k₂
        · simp [eraseA, lookupA, h, h2, Ne.symm hne]
        · simpa [eraseA, lookupA, h, h2] using ih

/-- All keys of an association list satisfy a boolean predicate. -/
def allKeys {α : Type} (m : List (String × α)) (p : String → Bool) : Bool :=
  m.all fun kv => p kv.1

theorem allKeys_setA {α : Type} {m : List (String × α)} {p : String → Bool}
    {k : String} {v : α} (hm : allKeys m p = true) (hk : p k = true) :
    allKeys (setA m k v) p = true := by
  induction m with
  | nil => simp [setA, allKeys, hk]
  | cons kv rest ih =>
      obtain ⟨k', v'⟩ := kv
      simp only [allKeys, List.all_cons, Bool.and_eq_true] at hm
      by_cases h : k' = k
      · simp [setA, h, allKeys, hk, hm.2]
      · simp only [setA, h, if_false, allKeys, List.all_cons, Bool.and_eq_true]
        exact ⟨hm.1, ih hm.2⟩

theorem allKeys_eraseA {α : Type} {m : List (String × α)} {p : String → Bool}
    {k : String} (hm : allKeys m p = true) : allKeys (eraseA m k) p = true := by
  induction m with
  | nil => simp [eraseA, allKeys]
  | cons kv rest ih =>
      obtain ⟨k', v'⟩ := kv
      simp only [allKeys, List.all_cons, Bool.and_eq_true] at hm
      by_cases h : k' = k
      · simpa [eraseA, h, allKeys] using ih hm.2
      · simp only [eraseA, h, if_false, allKeys, List.all_cons, Bool.and_eq_true]
        exact ⟨hm.1, ih hm.2⟩

theorem allKeys_imp2 {α : Type} {m : List (String × α)} {p q r : String → Bool}
    (hp : allKeys m p = true) (hq : allKeys m q = true)
    (h : ∀ k, p k = true → q k = true → r k = true) : allKeys m r = true := by
  induction m with
  | nil => simp [allKeys]
  | cons kv rest ih =>
      simp only [allKeys, List.all_cons, Bool.and_eq_true] at *
      exact ⟨h kv.1 hp.1 hq.1, ih hp.2 hq.2⟩

theorem allKeys_imp {α : Type} {m : List (String × α)} {p q : String → Bool}
    (hp : allKeys m p = true) (h : ∀ k, p k = true → q k = true) :
    allKeys m q = true :=
  allKeys_imp2 hp hp fun k h1 _ => h k h1

theorem lookupA_none_of_allKeys {α : Type} {m : List (String × α)} {p : String → Bool}
    {k : String} (hm : allKeys m p = true) (hk : p k = false) :
    lookupA m k = none := by
  induction m with
  | nil => simp [lookupA]
  | cons kv rest ih =>
      obtain ⟨k', v'⟩ := kv
      simp only [allKeys, List.all_cons, Bool.and_eq_true] at hm
      by_cases h : k' = k
      · rw [h] at hm; rw [hm.1] at hk; cases hk
      · simpa [lookupA, h] using ih hm.2

theorem allKeys_lookupA_some {α : Type} {m : List (String × α)} {p : String → Bool}
    {k : String} {v : α} (hm : allKeys m p = true) (hk : lookupA m k = some v) :
    p k = true := by
  induction m with
  | nil => simp [lookupA] at hk
  | cons kv rest ih =>
      obtain ⟨k', v'⟩ := kv
      simp only [allKeys, List.all_cons, Bool.and_eq_true] at hm
      by_cases h : k' = k
      · rw [← h]; exact hm.1
      · simp only [lookupA, h, if_false] at hk
        exact ih hm.2 hk

/-! ### Lemmas about generated identifiers -/

theorem uuid_inj {i j : Nat} (h : uuid i = uuid j) : i = j := by
  have h1 : 'f' :: List.replicate i 'e' = 'f' :: List.replicate j 'e' :=
    congrArg String.data h
  injection h1 with _ h2
  have := congrArg List.length h2
  simpa using this

theorem uuid_ne_authKeyStr (i j : Nat) : uuid i ≠ authKeyStr j := by
  intro h
  have h1 : 'f' :: List.replicate i 'e'
      = 'a' :: 'u' :: 't' :: 'h' :: '_' :: 'f' :: List.replicate j 'e' :=
    congrArg String.data h
  injection h1 with h2 _
  exact absurd h2 (by decide)

theorem authKeyStr_inj {i j : Nat} (h : authKeyStr i = authKeyStr j) : i = j := by
  have h1 : 'a' :: 'u' :: 't' :: 'h' :: '_' :: 'f' :: List.replicate i 'e'
      = 'a' :: 'u' :: 't' :: 'h' :: '_' :: 'f' :: List.replicate j 'e' :=
    congrArg String.data h
  simp only [List.cons.injEq, true_and] at h1
  have := congrArg List.length h1
  simpa using this

/-! ### The key-namespace invariant of the shared state -/

/-- A key was generated by the identifier supply before index `c`: it is a
session UUID or an `auth_`-prefixed state key of some earlier index. -/
def FreshIdx (c : Nat) (k : String) : Prop :=
  ∃ j, j < c ∧ (k = uuid j ∨ k = authKeyStr j)

/-- Boolean form of `FreshIdx`, restricted to session-map keys. -/
def sessKeyOkB (c : Nat) (k : String) : Bool :=
  (List.range c).any fun j => k == uuid j || k == authKeyStr j

/-- Boolean recogniser of transport-registry keys: a transport key is always a
bare generated UUID of some earlier index. -/
def transKeyOkB (c : Nat) (k : String) : Bool :=
  (List.range c).any fun j => k == uuid j

theorem sessKeyOkB_eq_true {c : Nat} {k : String} :
    sessKeyOkB c k = true ↔ FreshIdx c k := by
  simp [sessKeyOkB, FreshIdx, List.any_eq_true, List.mem_range]

theorem transKeyOkB_eq_true {c : Nat} {k : String} :
    transKeyOkB c k = true ↔ ∃ j, j < c ∧ k = uuid j := by
  simp [transKeyOkB, List.any_eq_true, List.mem_range]

theorem freshIdx_ne_uuid {c : Nat} {k : String} (h : FreshIdx c k) : k ≠ uuid c := by
  rintro rfl
  obtain ⟨j, hj, h | h⟩ := h
  · exact absurd (uuid_inj h) (by omega)
  · exact absurd h (uuid_ne_authKeyStr _ _)

theorem freshIdx_ne_authKeyStr {c : Nat} {k : String} (h : FreshIdx c k) :
    k ≠ authKeyStr c := by
  rintro rfl
  obtain ⟨j, hj, h | h⟩ := h
  · exact absurd h.symm (uuid_ne_authKeyStr _ _)
  · exact absurd (authKeyStr_inj h) (by omega)

theorem freshIdx_mono {c c' : Nat} {k : String} (hc : c ≤ c') (h : FreshIdx c k) :
    FreshIdx c' k := by
  obtain ⟨j, hj, hk⟩ := h
  exact ⟨j, by omega, hk⟩

theorem sessKeyOkB_mono {c c' : Nat} {k : String} (hc : c ≤ c')
    (h : sessKeyOkB c k = true) : sessKeyOkB c' k = true := by
  rw [sessKeyOkB_eq_true] at *
  exact freshIdx_mono hc h

theorem transKeyOkB_mono {c c' : Nat} {k : String} (hc : c ≤ c')
    (h : transKeyOkB c k = true) : transKeyOkB c' k = true := by
  rw [transKeyOkB_eq_true] at *
  obtain ⟨j, hj, hk⟩ := h
  exact ⟨j, by omega, hk⟩

theorem sessKeyOkB_uuid_self (c : Nat) : sessKeyOkB c (uuid c) = false := by
  rw [← Bool.not_eq_true, sessKeyOkB_eq_true]
  intro h
  exact freshIdx_ne_uuid h rfl

theorem sessKeyOkB_auth_self (c : Nat) : sessKeyOkB c (authKeyStr c) = false := by
  rw [← Bool.not_eq_true, sessKeyOkB_eq_true]
  intro h
  exact freshIdx_ne_authKeyStr h rfl

theorem transKeyOkB_uuid_self (c : Nat) : transKeyOkB c (uuid c) = false := by
  rw [← Bool.not_eq_true, transKeyOkB_eq_true]
  rintro ⟨j, hj, h⟩
  exact absurd (uuid_inj h) (by omega)

theorem transKeyOkB_auth (c j : Nat) : transKeyOkB c (authKeyStr j) = false := by
  rw [← Bool.not_eq_true, transKeyOkB_eq_true]
  rintro ⟨i, _, h⟩
  exact absurd h.symm (uuid_ne_authKeyStr _ _)

theorem transKeyOkB_ne_uuid {c : Nat} {k : String} (h : transKeyOkB c k = true) :
    k ≠ uuid c := by
  rw [transKeyOkB_eq_true] at h
  obtain ⟨j, hj, rfl⟩ := h
  intro hk
  exact absurd (uuid_inj hk) (by omega)

/-- The global invariant of the shared state: every session-map key and every
transport key was produced by the identifier supply below the current counter
(so the next generated identifier is globally fresh), transport keys are bare
UUIDs, and no key is registered in both maps at once. -/
def invB (st : ServerState) : Bool :=
  allKeys st.sessions (sessKeyOkB st.ctr)
    && allKeys st.transports (transKeyOkB st.ctr)
    && allKeys st.sessions (fun k => (lookupA st.transports k).isNone)

theorem invB_init : invB initState = true := by decide

theorem invB_parts {st : ServerState} :
    invB st = true ↔
      allKeys st.sessions (sessKeyOkB st.ctr) = true
      ∧ allKeys st.transports (transKeyOkB st.ctr) = true
      ∧ allKeys st.sessions (fun k => (lookupA st.transports k).isNone) = true := by
  simp [invB, Bool.and_eq_true, and_assoc]

theorem inv_insert_auth {st : ServerState} (h : invB st = true) (v : SessionValue) :
    invB { st with sessions := setA st.sessions (authKeyStr st.ctr) v,
                   ctr := st.ctr + 1 } = true := by
  obtain ⟨h1, h2, h3⟩ := invB_parts.mp h
  refine invB_parts.mpr ⟨?_, ?_, ?_⟩
  · exact allKeys_setA (allKeys_imp h1 fun k hk => sessKeyOkB_mono (Nat.le_succ _) hk)
      (sessKeyOkB_eq_true.mpr ⟨st.ctr, Nat.lt_succ_self _, Or.inr rfl⟩)
  · exact allKeys_imp h2 fun k hk => transKeyOkB_mono (Nat.le_succ _) hk
  · refine allKeys_setA h3 ?_
    rw [lookupA_none_of_allKeys h2 (transKeyOkB_auth _ _)]
    rfl

theorem inv_insert_sess_uuid {st : ServerState} (h : invB st = true) (v : SessionValue) :
    invB { st with sessions := setA st.sessions (uuid st.ctr) v,
                   ctr := st.ctr + 1 } = true := by
  obtain ⟨h1, h2, h3⟩ := invB_parts.mp h
  refine invB_parts.mpr ⟨?_, ?_, ?_⟩
  · exact allKeys_setA (allKeys_imp h1 fun k hk => sessKeyOkB_mono (Nat.le_succ _) hk)
      (sessKeyOkB_eq_true.mpr ⟨st.ctr, Nat.lt_succ_self _, Or.inl rfl⟩)
  · exact allKeys_imp h2 fun k hk => transKeyOkB_mono (Nat.le_succ _) hk
  · refine allKeys_setA h3 ?_
    rw [lookupA_none_of_allKeys h2 (transKeyOkB_uuid_self _)]
    rfl

theorem inv_insert_trans_uuid {st : ServerState} (h : invB st = true) (n : Nat) :
    invB { st with transports := setA st.transports (uuid st.ctr) n,
                   ctr := st.ctr + 1 } = true := by
  obtain ⟨h1, h2, h3⟩ := invB_parts.mp h
  refine invB_parts.mpr ⟨?_, ?_, ?_⟩
  · exact allKeys_imp h1 fun k hk => sessKeyOkB_mono (Nat.le_succ _) hk
  · exact allKeys_setA (allKeys_imp h2 fun k hk => transKeyOkB_mono (Nat.le_succ _) hk)
      (transKeyOkB_eq_true.mpr ⟨st.ctr, Nat.lt_succ_self _, rfl⟩)
  · refine allKeys_imp2 h1 h3 fun k hk hn => ?_
    have hne : k ≠ uuid st.ctr := freshIdx_ne_uuid (sessKeyOkB_eq_true.mp hk)
    rwa [lookupA_setA_ne _ _ fun hh => hne hh.symm]

theorem inv_erase_sess {st : ServerState} (h : invB st = true) (k : String) :
    invB { st with sessions := eraseA st.sessions k } = true := by
  obtain ⟨h1, h2, h3⟩ := invB_parts.mp h
  exact invB_parts.mpr ⟨allKeys_eraseA h1, h2, allKeys_eraseA h3⟩

theorem inv_refresh {st : ServerState} {k : String} {v : SessionValue}
    (h : invB st = true) (hlook : lookupA st.sessions k = some v) (v' : SessionValue) :
    invB { st with sessions := setA st.sessions k v' } = true := by
  obtain ⟨h1, h2, h3⟩ := invB_parts.mp h
  exact invB_parts.mpr
    ⟨allKeys_setA h1 (allKeys_lookupA_some h1 hlook),
     h2,
     allKeys_setA h3 (allKeys_lookupA_some h3 hlook)⟩

theorem inv_getOrCreate {st : ServerState} (h : invB st = true)
    (hdr : Option String) (t : Nat) : invB (getOrCreateSession hdr t st).2 = true := by
  unfold getOrCreateSession
  split
  · split
    next v hlook => simpa using inv_refresh h hlook (refreshEntry v t)
    next hlook => simpa using h
  · simpa using inv_insert_sess_uuid h _

theorem inv_step (env : Env) (accept : String → Bool) {st : ServerState}
    (h : invB st = true) (r : Req) : invB (step env accept st r) = true := by
  cases r with
  | authorize q t =>
      simp only [step, oauthAuthorize]
      cases hr : q.redirect_uri with
      | none => simpa using h
      | some u =>
          cases hc : truthyO q.client_id with
          | false => simpa using h
          | true => simpa using inv_insert_auth h _
  | callback q =>
      simp only [step, oauthCallback]
      by_cases he : truthyO q.error = true
      · simpa [he] using h
      · rw [if_neg he]
        by_cases hcs : (!truthyO q.code || !truthyO q.state) = true
        · simpa [hcs] using h
        · rw [if_neg hcs]
          cases hlook : lookupA st.sessions (q.state.getD "") with
          | none => simpa using h
          | some v =>
              cases v with
              | mcp m => simpa using inv_erase_sess h _
              | pending p slot => simpa using inv_erase_sess h _
  | post ah hdr i =>
      simp only [step, mcpPost]
      cases requireAuth env accept ah with
      | unauthorized w => simpa using h
      | ok tok =>
          by_cases hc : truthyO hdr = true ∧ (lookupA st.transports (hdr.getD "")).isSome = true
          · simpa [hc] using h
          · rw [if_neg hc]
            by_cases hc2 : truthyO hdr = false ∧ i = true
            · simpa [hc2] using inv_insert_trans_uuid h _
            · simpa [hc2] using h
  | get ah hdr t =>
      simp only [step, mcpGet]
      cases requireAuth env accept ah with
      | unauthorized w => simpa using h
      | ok tok => simpa using inv_getOrCreate h hdr t
  | del ah hdr =>
      simp only [step, mcpDelete]
      cases requireAuth env accept ah with
      | unauthorized w => simpa using h
      | ok tok =>
          by_cases hc : truthyO hdr = true ∧ (lookupA st.sessions (hdr.getD "")).isSome = true
          · simpa [hc] using inv_erase_sess h _
          · simpa [hc] using h

theorem inv_exec (env : Env) (accept : String → Bool) {st : ServerState}
    (h : invB st = true) (reqs : List Req) : invB (exec env accept st reqs) = true := by
  induction reqs generalizing st with
  | nil => simpa [exec] using h
  | cons r rs ih => exact ih (inv_step env accept h r)

/-! ### Consumed and deleted keys never come back -/

theorem lookupA_eraseA_of_none {α : Type} (m : List (String × α)) {k : String}
    (k' : String) (h : lookupA m k = none) : lookupA (eraseA m k') k = none := by
  by_cases he : k' = k
  · subst he; exact lookupA_eraseA_self m k'
  · rw [lookupA_eraseA_ne m he]; exact h

theorem step_ctr_le (env : Env) (accept : String → Bool) (st : ServerState) (r : Req) :
    st.ctr ≤ (step env accept st r).ctr := by
  cases r <;>
    simp only [step, oauthAuthorize, oauthCallback, mcpPost, mcpGet, mcpDelete,
      getOrCreateSession] <;>
    (repeat' split) <;> simp

/-- A key absent from the session map, generated below the current counter,
stays absent from the session map across any request. -/
theorem sessNone_step (env : Env) (accept : String → Bool) {st : ServerState}
    {k : String} (hs : lookupA st.sessions k = none) (hf : FreshIdx st.ctr k)
    (r : Req) : lookupA (step env accept st r).sessions k = none := by
  cases r with
  | authorize q t =>
      simp only [step, oauthAuthorize]
      cases hr : q.redirect_uri with
      | none => simpa using hs
      | some u =>
          cases hc : truthyO q.client_id with
          | false => simpa using hs
          | true =>
              simp only []
              rw [lookupA_setA_ne _ _ (Ne.symm (freshIdx_ne_authKeyStr hf))]
              exact hs
  | callback q =>
      simp only [step, oauthCallback]
      (repeat' split) <;> simp <;>
        first
        | exact hs
        | exact lookupA_eraseA_of_none _ _ hs
  | post ah hdr i =>
      simp only [step, mcpPost]
      (repeat' split) <;> simpa using hs
  | get ah hdr t =>
      simp only [step, mcpGet]
      cases requireAuth env accept ah with
      | unauthorized w => simpa using hs
      | ok tok =>
          simp only [getOrCreateSession]
          split
        -- known-session branch: the refreshed key is bound in the map, so ≠ k
          · split
            next v hlook =>
                have hne : hdr.getD "" ≠ k := by
                  intro hh; rw [hh, hs] at hlook; cases hlook
                simpa using (lookupA_setA_ne _ _ hne).trans hs
            next hlook => simpa using hs
          · simp only []
            have := lookupA_setA_ne st.sessions
              (.mcp { id := uuid st.ctr, createdAt := t, lastAccessAt := t })
              (Ne.symm (freshIdx_ne_uuid hf))
            simpa using this.trans hs
  | del ah hdr =>
      simp only [step, mcpDelete]
      (repeat' split) <;> simp <;>
        first
        | exact hs
        | exact lookupA_eraseA_of_none _ _ hs

/-- A key absent from the transport registry, generated below the current
counter, stays absent from the transport registry across any request. -/
theorem transNone_step (env : Env) (accept : String → Bool) {st : ServerState}
    {k : String} (ht : lookupA st.transports k = none) (hf : FreshIdx st.ctr k)
    (r : Req) : lookupA (step env accept st r).transports k = none := by
  cases r with
  | authorize q t =>
      simp only [step, oauthAuthorize]
      (repeat' split) <;> simpa using ht
  | callback q =>
      simp only [step, oauthCallback]
      (repeat' split) <;> simpa using ht
  | post ah hdr i =>
      simp only [step, mcpPost]
      cases requireAuth env accept ah with
      | unauthorized w => simpa using ht
      | ok tok =>
          (repeat' split) <;> try simpa using ht
          · simp only []
            have := lookupA_setA_ne st.transports st.ctr
              (Ne.symm (freshIdx_ne_uuid hf))
            simpa using this.trans ht
  | get ah hdr t =>
      simp only [step, mcpGet]
      cases requireAuth env accept ah with
      | unauthorized w => simpa using ht
      | ok tok =>
          simp only [getOrCreateSession]
          (repeat' split) <;> simpa using ht
  | del ah hdr =>
      simp only [step, mcpDelete]
      (repeat' split) <;> simpa using ht

/-- Both kinds of absence, together with the freshness bound, persist across a
request. -/
theorem gone_step (env : Env) (accept : String → Bool) {st : ServerState}
    {k : String}
    (h : lookupA st.sessions k = none ∧ lookupA st.transports k = none
      ∧ FreshIdx st.ctr k) (r : Req) :
    lookupA (step env accept st r).sessions k = none
      ∧ lookupA (step env accept st r).transports k = none
      ∧ FreshIdx (step env accept st r).ctr k := by
  obtain ⟨hs, ht, hf⟩ := h
  exact ⟨sessNone_step env accept hs hf r,
    transNone_step env accept ht hf r,
    freshIdx_mono (step_ctr_le env accept st r) hf⟩

theorem gone_exec (env : Env) (accept : String → Bool) {st : ServerState}
    {k : String}
    (h : lookupA st.sessions k = none ∧ lookupA st.transports k = none
      ∧ FreshIdx st.ctr k) (reqs : List Req) :
    lookupA (exec env accept st reqs).sessions k = none
      ∧ lookupA (exec env accept st reqs).transports k = none
      ∧ FreshIdx (exec env accept st reqs).ctr k := by
  induction reqs generalizing st with
  | nil => simpa [exec] using h
  | cons r rs ih => exact ih (gone_step env accept h r)

/-- Session-map absence alone (no transport hypothesis) also persists. -/
theorem sessGone_exec (env : Env) (accept : String → Bool) {st : ServerState}
    {k : String}
    (h : lookupA st.sessions k = none ∧ FreshIdx st.ctr k) (reqs : List Req) :
    lookupA (exec env accept st reqs).sessions k = none
      ∧ FreshIdx (exec env accept st reqs).ctr k := by
  induction reqs generalizing st with
  | nil => simpa [exec] using h
  | cons r rs ih =>
      exact ih ⟨sessNone_step env accept h.1 h.2 r,
        freshIdx_mono (step_ctr_le env accept st r) h.2⟩

/-! ### Small facts about generated keys and truthiness -/

theorem uuid_ne_empty (n : Nat) : uuid n ≠ "" := by
  intro h
  have h1 : 'f' :: List.replicate n 'e' = ([] : List Char) := congrArg String.data h
  cases h1

theorem authKeyStr_ne_empty (n : Nat) : authKeyStr n ≠ "" := by
  intro h
  have h1 : 'a' :: 'u' :: 't' :: 'h' :: '_' :: 'f' :: List.replicate n 'e'
      = ([] : List Char) := congrArg String.data h
  cases h1

theorem truthyO_some_of_ne {s : String} (h : s ≠ "") : truthyO (some s) = true := by
  simp [truthyO, h]

theorem truthyO_authKey (n : Nat) : truthyO (some (authKeyStr n)) = true :=
  truthyO_some_of_ne (authKeyStr_ne_empty n)

theorem truthyO_uuid (n : Nat) : truthyO (some (uuid n)) = true :=
  truthyO_some_of_ne (uuid_ne_empty n)

theorem freshIdx_ne_empty {c : Nat} {k : String} (h : FreshIdx c k) : k ≠ "" := by
  obtain ⟨j, _, rfl | rfl⟩ := h
  · exact uuid_ne_empty j
  · exact authKeyStr_ne_empty j

/-- The callback on a truthy but unknown state key: 400 `invalid_state`,
state untouched. -/
theorem callback_unknown_state {st : ServerState} {k : String} {q : CallbackQuery}
    (hnone : lookupA st.sessions k = none) (hqs : q.state = some k) (hne : k ≠ "")
    (hqc : truthyO q.code = true) (hqe : truthyO q.error = false) :
    oauthCallback q st = (.invalidState, st) := by
  unfold oauthCallback
  rw [if_neg (by simp [hqe])]
  rw [if_neg (by simp [hqc, hqs, truthyO_some_of_ne hne])]
  simp only [hqs, Option.getD_some]
  rw [hnone]

/-! ### Shared concrete fixtures for witnesses and counterexamples -/

/-- A fully configured environment. -/
def envEx : Env :=
  { HOST := "localhost", PORT := "3000", HH_CLIENT_ID := "cid",
    HH_CLIENT_SECRET := "sec",
    HH_REDIRECT_URI := "http://localhost:3000/oauth/callback/debug",
    HH_USER_AGENT := "ua" }

/-- An upstream identity endpoint accepting exactly the token `goodtok`. -/
def acceptEx : String → Bool := fun tok => tok == "goodtok"

/-- A caller redirect URI. -/
def rEx : Url := { base := "http://localhost:9999/cb", params := [] }

/-- An authorize query with caller state `abc`. -/
def qAuthEx : AuthorizeQuery :=
  { client_id := some "cid", redirect_uri := some rEx, state := some "abc",
    code_challenge := none, code_challenge_method := none }

/-- The pending-authorization record `qAuthEx` stores at time 0. -/
def pendingEx : PendingAuth :=
  { originalRedirectUri := rEx, originalState := some "abc", clientId := "cid",
    codeChallenge := none, codeChallengeMethod := "S256", createdAt := 0 }

/-- An authenticated `Authorization` header for `acceptEx`. -/
def bTokEx : Option String := some "Bearer goodtok"

/-! ### Claim theorems -/

/-- C6: every `GET /oauth/authorize` missing `client_id` or `redirect_uri` is
answered 400 `invalid_request` and leaves the pending-authorization store (the
whole shared state) exactly as it was — no entry is created on the failure
path. -/
theorem authorize_missing_params_rejected (env : Env) (q : AuthorizeQuery)
    (t : Nat) (st : ServerState)
    (h : q.client_id = none ∨ q.redirect_uri = none) :
    (oauthAuthorize env q t st).1 = .invalidRequest
      ∧ authorizeStatus (oauthAuthorize env q t st).1 = 400
      ∧ (oauthAuthorize env q t st).2 = st := by
  rcases h with h | h
  · cases hr : q.redirect_uri with
    | none => simp [oauthAuthorize, hr, authorizeStatus]
    | some u => simp [oauthAuthorize, hr, h, truthyO, authorizeStatus]
  · simp [oauthAuthorize, h, authorizeStatus]

/-- An authorize query missing `client_id`. -/
def qNoClientEx : AuthorizeQuery :=
  { client_id := none, redirect_uri := some rEx, state := none,
    code_challenge := none, code_challenge_method := none }

/-- Witness for C6 at a concrete request missing `client_id`. -/
theorem authorize_missing_params_rejected_witness :
    qNoClientEx.client_id = none
      ∧ (oauthAuthorize envEx qNoClientEx 0 initState).1 = .invalidRequest
      ∧ authorizeStatus (oauthAuthorize envEx qNoClientEx 0 initState).1 = 400
      ∧ (oauthAuthorize envEx qNoClientEx 0 initState).2 = initState :=
  ⟨rfl, authorize_missing_params_rejected envEx qNoClientEx 0 initState (Or.inl rfl)⟩

/-- C4: every `POST /oauth/register` passing validation (truthy `client_name`,
non-empty `redirect_uris` array), on a facade with a configured upstream
client id, is answered 200 with `client_id` equal to the configured
`HH_CLIENT_ID` and the caller's `redirect_uris` echoed unchanged — no fresh
client id is ever generated, for any body. -/
theorem register_returns_static_client (env : Env) (b : RegisterBody)
    (hname : truthyJO b.client_name = true)
    (hred : isNonemptyArr b.redirect_uris = true)
    (hcid : env.HH_CLIENT_ID ≠ "") :
    registerStatus (oauthRegister env b) = 200
      ∧ regClientId (oauthRegister env b) = some env.HH_CLIENT_ID
      ∧ regRedirectUris (oauthRegister env b) = b.redirect_uris := by
  cases hru : b.redirect_uris with
  | none => rw [hru] at hred; simp [isNonemptyArr] at hred
  | some ru =>
      rw [hru] at hred
      simp [oauthRegister, hname, hred, hru, hcid, registerStatus, regClientId,
        regRedirectUris]

/-- A valid registration body used by witnesses. -/
def regBodyEx : RegisterBody :=
  { client_name := some (JVal.str "test"), grant_types := none,
    response_types := none,
    redirect_uris := some (JVal.arr [JVal.str "http://localhost:9999/cb"]),
    scope := none }

/-- Witness for C4 at a concrete registration request. -/
theorem register_returns_static_client_witness :
    truthyJO regBodyEx.client_name = true
      ∧ envEx.HH_CLIENT_ID ≠ ""
      ∧ registerStatus (oauthRegister envEx regBodyEx) = 200
      ∧ regClientId (oauthRegister envEx regBodyEx) = some "cid"
      ∧ regRedirectUris (oauthRegister envEx regBodyEx)
          = some (JVal.arr [JVal.str "http://localhost:9999/cb"]) := by
  have h := register_returns_static_client envEx regBodyEx rfl rfl (by decide)
  exact ⟨rfl, by decide, h.1, h.2.1, h.2.2⟩

/-- C5 counterexample: the body with the number 42 as `client_name` (not a
string at all, hence not a non-empty string) and a valid `redirect_uris` is
accepted with 200 instead of being rejected 400 `invalid_client_metadata`:
the code checks only JS truthiness of `client_name`. -/
def regBodyNumName : RegisterBody :=
  { client_name := some (JVal.num 42), grant_types := none,
    response_types := none,
    redirect_uris := some (JVal.arr [JVal.str "http://localhost:9999/cb"]),
    scope := none }

theorem register_numeric_client_name_accepted :
    regBodyNumName.client_name = some (JVal.num 42)
      ∧ registerStatus (oauthRegister envEx regBodyNumName) = 200
      ∧ regClientId (oauthRegister envEx regBodyNumName) = some "cid" :=
  ⟨rfl, rfl, rfl⟩

/-- C5 amended: `POST /oauth/register` rejects with 400
`invalid_client_metadata` exactly the requests whose `client_name` is JS-falsy
(absent, empty string, 0, false, or null — truthy non-string values are
accepted); rejects with `invalid_redirect_uri` exactly the remaining requests
whose `redirect_uris` is missing, not an array, or empty; and succeeds (200)
exactly when both checks pass and the upstream client id is configured. -/
theorem register_validation_exact (env : Env) (b : RegisterBody) :
    (oauthRegister env b = .invalidClientMetadata ↔ truthyJO b.client_name = false)
      ∧ (oauthRegister env b = .invalidRedirectUri
          ↔ (truthyJO b.client_name = true ∧ isNonemptyArr b.redirect_uris = false))
      ∧ (registerStatus (oauthRegister env b) = 200
          ↔ (truthyJO b.client_name = true ∧ isNonemptyArr b.redirect_uris = true
              ∧ env.HH_CLIENT_ID ≠ "")) := by
  cases hn : truthyJO b.client_name <;>
    cases hr2 : isNonemptyArr b.redirect_uris <;>
    by_cases hc : env.HH_CLIENT_ID = "" <;>
    simp [oauthRegister, hn, hr2, hc, registerStatus]

/-- C3: every `POST /oauth/token` passing parameter validation
(`grant_type=authorization_code`, truthy `client_id`, `code`, `redirect_uri`)
reaches the upstream exchange with a request body whose `redirect_uri` is the
statically configured one (`HH_REDIRECT_URI`, falling back to the facade's own
callback URL), and the prepared upstream request is identical for every
caller-supplied `redirect_uri` value — the caller's value feeds only the
presence check. -/
theorem token_exchange_uses_configured_redirect (env : Env) (b : TokenBody)
    (hg : b.grant_type = some "authorization_code")
    (hc : truthyO b.client_id = true) (hcode : truthyO b.code = true)
    (hr : truthyO b.redirect_uri = true) :
    ∃ r, oauthToken env b = .exchange r
      ∧ r.redirect_uri = configuredRedirectUri env
      ∧ r.client_id = env.HH_CLIENT_ID
      ∧ ∀ ru, truthyO (some ru) = true
          → oauthToken env { b with redirect_uri := some ru } = .exchange r := by
  refine ⟨
    { grant_type := "authorization_code", client_id := env.HH_CLIENT_ID,
      client_secret := env.HH_CLIENT_SECRET, code := b.code.getD "",
      redirect_uri := configuredRedirectUri env,
      code_verifier := if truthyO b.code_verifier then b.code_verifier else none },
    ?_, rfl, rfl, ?_⟩
  · simp [oauthToken, hg, hc, hcode, hr]
  · intro ru hru
    simp [oauthToken, hg, hc, hcode, hru]

/-- A valid token-exchange body whose caller `redirect_uri` differs from the
configured one. -/
def tokenBodyEx : TokenBody :=
  { grant_type := some "authorization_code", client_id := some "cid",
    code := some "XYZ", redirect_uri := some "http://localhost:9999/cb",
    code_verifier := none }

/-- The upstream request the facade prepares for `tokenBodyEx` under `envEx`. -/
def upstreamEx : UpstreamTokenRequest :=
  { grant_type := "authorization_code", client_id := "cid",
    client_secret := "sec", code := "XYZ",
    redirect_uri := "http://localhost:3000/oauth/callback/debug",
    code_verifier := none }

/-- Witness for C3: at `tokenBodyEx` the upstream request uses the configured
redirect URI, and swapping the caller redirect URI leaves it unchanged. -/
theorem token_exchange_uses_configured_redirect_witness :
    oauthToken envEx tokenBodyEx = .exchange upstreamEx
      ∧ upstreamEx.redirect_uri = configuredRedirectUri envEx
      ∧ upstreamEx.client_id = envEx.HH_CLIENT_ID
      ∧ oauthToken envEx { tokenBodyEx with redirect_uri := some "http://other/cb" }
          = .exchange upstreamEx := by
  obtain ⟨r, h1, h2, h3, h4⟩ :=
    token_exchange_uses_configured_redirect envEx tokenBodyEx rfl rfl rfl rfl
  have he : oauthToken envEx tokenBodyEx = .exchange upstreamEx := by decide
  injection he.symm.trans h1 with hr
  subst hr
  exact ⟨h1, h2, h3, h4 "http://other/cb" (by decide)⟩

/-- C7 counterexample: the header `Bearer ` (seven characters, empty token)
is rejected 401 by `requireAuth` but with no `WWW-Authenticate` header at all,
contradicting the claim that every unauthenticated `/mcp` request is answered
401 with a `WWW-Authenticate` header pointing at the protected-resource
metadata URL. -/
theorem mcp_empty_bearer_rejected_without_challenge :
    requireAuth envEx acceptEx (some "Bearer ") = .unauthorized none
      ∧ mcpPost envEx acceptEx (some "Bearer ") none true initState
          = (.unauthorized none, initState)
      ∧ mcpPostStatus
          (mcpPost envEx acceptEx (some "Bearer ") none true initState).1 = 401 :=
  ⟨by decide, by decide, by decide⟩

/-- C7 amended: every `POST`/`GET`/`DELETE` on `/mcp` that does not carry a
bearer token accepted by the upstream identity endpoint is answered 401 with
the state untouched — the rejection happens before any session-id logic — and
the 401 carries a `WWW-Authenticate` header pointing at the protected-resource
metadata URL except in the single case of the literal header `Bearer `
(empty token), whose 401 carries no `WWW-Authenticate` header. -/
theorem mcp_unauthenticated_rejected (env : Env) (accept : String → Bool)
    (ah hdr : Option String) (i : Bool) (t : Nat) (st : ServerState)
    (h : ∀ tok, ah = some ("Bearer " ++ tok) → tok ≠ "" → accept tok = false) :
    ∃ w, requireAuth env accept ah = .unauthorized w
      ∧ mcpPost env accept ah hdr i st = (.unauthorized w, st)
      ∧ mcpGet env accept ah hdr t st = (.unauthorized w, st)
      ∧ mcpDelete env accept ah hdr st = (.unauthorized w, st)
      ∧ (ah ≠ some "Bearer "
          → w = some (challengeHeader env) ∨ w = some (challengeHeaderInvalid env)) := by
  have main : ∃ w, requireAuth env accept ah = .unauthorized w
      ∧ (ah ≠ some "Bearer "
          → w = some (challengeHeader env) ∨ w = some (challengeHeaderInvalid env)) := by
    cases ah with
    | none => exact ⟨some (challengeHeader env), rfl, fun _ => Or.inl rfl⟩
    | some s =>
        obtain ⟨d⟩ := s
        by_cases hp : bearerChars.isPrefixOf d = true
        · obtain ⟨tl, htl⟩ := List.isPrefixOf_iff_prefix.mp hp
          subst htl
          have hdrop : (bearerChars ++ tl).drop 7 = tl := List.drop_left bearerChars tl
          by_cases ht : (⟨tl⟩ : String) = ""
          · refine ⟨none, ?_, ?_⟩
            · unfold requireAuth
              simp only [hp, if_true]
              rw [hdrop]
              simp [ht]
            · intro hne
              have htl0 : tl = ([] : List Char) := congrArg String.data ht
              subst htl0
              exact absurd rfl hne
          · have hacc : accept ⟨tl⟩ = false := h ⟨tl⟩ rfl ht
            refine ⟨some (challengeHeaderInvalid env), ?_, fun _ => Or.inr rfl⟩
            unfold requireAuth
            simp only [hp, if_true]
            rw [hdrop]
            simp [ht, hacc]
        · exact ⟨some (challengeHeader env),
            by unfold requireAuth; simp [hp], fun _ => Or.inl rfl⟩
  obtain ⟨w, hra, hw⟩ := main
  exact ⟨w, hra, by simp [mcpPost, hra], by simp [mcpGet, hra],
    by simp [mcpDelete, hra], hw⟩

/-- Witness for C7 at a concrete malformed header (no `Bearer ` scheme). -/
theorem mcp_unauthenticated_rejected_witness :
    requireAuth envEx acceptEx (some "xyz") = .unauthorized (some (challengeHeader envEx))
      ∧ mcpPost envEx acceptEx (some "xyz") none true initState
          = (.unauthorized (some (challengeHeader envEx)), initState)
      ∧ mcpGet envEx acceptEx (some "xyz") none 0 initState
          = (.unauthorized (some (challengeHeader envEx)), initState)
      ∧ mcpDelete envEx acceptEx (some "xyz") none initState
          = (.unauthorized (some (challengeHeader envEx)), initState) := by
  obtain ⟨w, hra, hp, hg, hd, hw⟩ :=
    mcp_unauthenticated_rejected envEx acceptEx (some "xyz") none true 0 initState
      (fun tok htok _ => by
        have : "xyz" = "Bearer " ++ tok := Option.some.inj htok
        have hlen := congrArg (fun s => s.data.length) this
        simp [String.data_append] at hlen)
  have he : requireAuth envEx acceptEx (some "xyz")
      = .unauthorized (some (challengeHeader envEx)) := by decide
  injection he.symm.trans hra with hwv
  subst hwv
  exact ⟨hra, hp, hg, hd⟩

/-- C2 amended: an authorize request with redirect URI `R` stores the pending
record under the generated state key, and any callback presenting that key
with a truthy code `c`, while the record is still stored, responds 302 with
Location exactly `R` extended with `code=c` and — when the caller supplied a
truthy (non-empty) state — `state=S`; when the caller supplied no state or an
empty state the Location carries no `state` parameter.  The entry is deleted
by the callback. -/
theorem authorize_callback_roundtrip (env : Env) (q : AuthorizeQuery) (t : Nat)
    (st : ServerState) (r : Url) (hc : truthyO q.client_id = true)
    (hr : q.redirect_uri = some r) :
    lookupA (oauthAuthorize env q t st).2.sessions (authKeyStr st.ctr)
      = some (.pending
          { originalRedirectUri := r, originalState := q.state,
            clientId := q.client_id.getD "", codeChallenge := q.code_challenge,
            codeChallengeMethod := q.code_challenge_method.getD "S256",
            createdAt := t } none)
      ∧ ∀ st' p slot c cq,
          lookupA st'.sessions (authKeyStr st.ctr) = some (.pending p slot)
          → p.originalRedirectUri = r → p.originalState = q.state → c ≠ ""
          → cq = { code := some c, state := some (authKeyStr st.ctr),
                   error := none, error_description := none }
          → (oauthCallback cq st').1
              = .redirect
                  (if truthyO q.state = true then
                    { base := r.base,
                      params := setParam (setParam r.params "code" c) "state"
                        (q.state.getD "") }
                  else { base := r.base, params := setParam r.params "code" c })
            ∧ callbackStatus (oauthCallback cq st').1 = 302
            ∧ lookupA (oauthCallback cq st').2.sessions (authKeyStr st.ctr) = none := by
  constructor
  · simp only [oauthAuthorize, hr, hc]
    exact lookupA_setA_self _ _ _
  · intro st' p slot c cq hlook hpr hps hcne hcq
    subst hcq
    have hmain : oauthCallback
        { code := some c, state := some (authKeyStr st.ctr),
          error := none, error_description := none } st'
        = (.redirect
            (if truthyO q.state = true then
              { base := r.base,
                params := setParam (setParam r.params "code" c) "state"
                  (q.state.getD "") }
            else { base := r.base, params := setParam r.params "code" c }),
           { st' with sessions := eraseA st'.sessions (authKeyStr st.ctr) }) := by
      unfold oauthCallback
      rw [if_neg (by simp [truthyO])]
      rw [if_neg (by simp [truthyO_some_of_ne hcne,
        truthyO_authKey st.ctr])]
      simp only [Option.getD_some]
      rw [hlook]
      simp only [hpr, hps]
    refine ⟨?_, ?_, ?_⟩
    · rw [hmain]
    · rw [hmain]
      cases hts : truthyO q.state <;> rfl
    · rw [hmain]
      exact lookupA_eraseA_self _ _

/-- The upstream callback query presenting the first generated state key with
code `XYZ`. -/
def cbEx : CallbackQuery :=
  { code := some "XYZ", state := some (authKeyStr 0), error := none,
    error_description := none }

/-- Witness for C2 at the concrete round trip with caller state `abc`. -/
theorem authorize_callback_roundtrip_witness :
    lookupA (oauthAuthorize envEx qAuthEx 0 initState).2.sessions (authKeyStr 0)
        = some (.pending pendingEx none)
      ∧ (oauthCallback cbEx (oauthAuthorize envEx qAuthEx 0 initState).2).1
          = .redirect
              { base := "http://localhost:9999/cb",
                params := [("code", "XYZ"), ("state", "abc")] }
      ∧ callbackStatus
          (oauthCallback cbEx (oauthAuthorize envEx qAuthEx 0 initState).2).1 = 302
      ∧ lookupA (oauthCallback cbEx
          (oauthAuthorize envEx qAuthEx 0 initState).2).2.sessions (authKeyStr 0)
          = none := by
  obtain ⟨h1, h2⟩ :=
    authorize_callback_roundtrip envEx qAuthEx 0 initState rEx rfl rfl
  obtain ⟨ha, hb, hc2⟩ := h2 (oauthAuthorize envEx qAuthEx 0 initState).2
    pendingEx none "XYZ" cbEx h1 rfl rfl (by decide) rfl
  exact ⟨h1, ha.trans (by decide), hb, hc2⟩

/-- The authorize query supplying the empty string as its `state`. -/
def qEmptyStateEx : AuthorizeQuery := { qAuthEx with state := some "" }

/-- C2 counterexample: the caller supplied `state=` (the empty string, so a
state parameter was supplied); the claim requires the callback Location to be
`R` extended with `code=XYZ` and `state=`, but the code tests JS truthiness of
the stored state and drops it: the Location is `R` with `code=XYZ` only. -/
theorem roundtrip_empty_state_dropped :
    qEmptyStateEx.state = some ""
      ∧ (oauthCallback cbEx (oauthAuthorize envEx qEmptyStateEx 0 initState).2).1
          = .redirect { base := "http://localhost:9999/cb", params := [("code", "XYZ")] }
      ∧ (oauthCallback cbEx (oauthAuthorize envEx qEmptyStateEx 0 initState).2).1
          ≠ .redirect
              { base := "http://localhost:9999/cb",
                params := setParam (setParam ([] : List (String × String))
                  "code" "XYZ") "state" "" } :=
  ⟨rfl, by decide, by decide⟩

/-- C1: a pending authorization stored under a generated state key `k` is
consumed exactly once: the first callback presenting `state=k` with a truthy
code and no upstream error deletes the entry and issues the redirect, and
every later callback of that shape presenting the same `k` — after any
sequence of further requests — is answered 400 `invalid_state`, performs no
redirect, and leaves the state unchanged. -/
theorem callback_state_single_use (env : Env) (accept : String → Bool)
    (st : ServerState) (i : Nat) (p : PendingAuth) (slot : Option Nat)
    (q : CallbackQuery) (hi : i < st.ctr)
    (hk : lookupA st.sessions (authKeyStr i) = some (.pending p slot))
    (hqs : q.state = some (authKeyStr i)) (hqc : truthyO q.code = true)
    (hqe : truthyO q.error = false) :
    (∃ u, (oauthCallback q st).1 = .redirect u)
      ∧ lookupA (oauthCallback q st).2.sessions (authKeyStr i) = none
      ∧ ∀ reqs q', q'.state = some (authKeyStr i) → truthyO q'.code = true
          → truthyO q'.error = false →
          oauthCallback q' (exec env accept (oauthCallback q st).2 reqs)
            = (.invalidState, exec env accept (oauthCallback q st).2 reqs)
          ∧ callbackStatus
              (oauthCallback q' (exec env accept (oauthCallback q st).2 reqs)).1
              = 400 := by
  have hne : authKeyStr i ≠ "" := authKeyStr_ne_empty i
  have hmain : (oauthCallback q st).2
        = { st with sessions := eraseA st.sessions (authKeyStr i) }
      ∧ ∃ u, (oauthCallback q st).1 = .redirect u := by
    unfold oauthCallback
    rw [if_neg (by simp [hqe])]
    rw [if_neg (by simp [hqc, hqs, truthyO_authKey i])]
    simp only [hqs, Option.getD_some]
    rw [hk]
    exact ⟨rfl, ⟨_, rfl⟩⟩
  have hgone0 : lookupA (oauthCallback q st).2.sessions (authKeyStr i) = none := by
    rw [hmain.1]
    exact lookupA_eraseA_self _ _
  have hf : FreshIdx (oauthCallback q st).2.ctr (authKeyStr i) := by
    rw [hmain.1]
    exact ⟨i, hi, Or.inr rfl⟩
  refine ⟨hmain.2, hgone0, ?_⟩
  intro reqs q' hq's hq'c hq'e
  have hgone := sessGone_exec env accept ⟨hgone0, hf⟩ reqs
  have hcall := callback_unknown_state hgone.1 hq's hne hq'c hq'e
  exact ⟨hcall, by rw [hcall]; rfl⟩

/-- Witness for C1: the concrete authorize/callback trace, a second callback
with the same state key after an interleaved `/mcp` request. -/
theorem callback_state_single_use_witness :
    lookupA (oauthCallback cbEx
        (oauthAuthorize envEx qAuthEx 0 initState).2).2.sessions (authKeyStr 0)
        = none
      ∧ oauthCallback cbEx
          (exec envEx acceptEx
            (oauthCallback cbEx (oauthAuthorize envEx qAuthEx 0 initState).2).2
            [Req.get bTokEx none 5])
          = (.invalidState,
             exec envEx acceptEx
               (oauthCallback cbEx (oauthAuthorize envEx qAuthEx 0 initState).2).2
               [Req.get bTokEx none 5])
      ∧ callbackStatus
          (oauthCallback cbEx
            (exec envEx acceptEx
              (oauthCallback cbEx (oauthAuthorize envEx qAuthEx 0 initState).2).2
              [Req.get bTokEx none 5])).1 = 400 := by
  obtain ⟨hredir, hgone, hrest⟩ :=
    callback_state_single_use envEx acceptEx
      (oauthAuthorize envEx qAuthEx 0 initState).2 0 pendingEx none cbEx
      (by decide) (by decide) rfl (by decide) (by decide)
  obtain ⟨ha, hb⟩ := hrest [Req.get bTokEx none 5] cbEx rfl (by decide) (by decide)
  exact ⟨hgone, ha, hb⟩

/-- C8 amended: after a `DELETE /mcp` presenting session id `s` succeeds (on
any state satisfying the key invariant), no session data or transport that was
associated with `s` is reachable by any later request carrying `s`: after any
further request sequence `s` is absent from both registries, a later GET
presenting `s` mints a brand-new session under a fresh id (never resuming
`s`), while a later POST presenting `s` is rejected 400 and a later DELETE
404, neither resuming nor creating state. -/
theorem delete_session_not_resumable (env : Env) (accept : String → Bool)
    (st : ServerState) (s : String) (v : SessionValue) (ah : Option String)
    (tok : String) (hinv : invB st = true)
    (hs : lookupA st.sessions s = some v)
    (hauth : requireAuth env accept ah = .ok tok) :
    (mcpDelete env accept ah (some s) st).1 = .terminated
      ∧ lookupA (mcpDelete env accept ah (some s) st).2.sessions s = none
      ∧ lookupA (mcpDelete env accept ah (some s) st).2.transports s = none
      ∧ ∀ reqs st2,
          st2 = exec env accept (mcpDelete env accept ah (some s) st).2 reqs →
          lookupA st2.sessions s = none
          ∧ lookupA st2.transports s = none
          ∧ (∀ t, (mcpGet env accept ah (some s) t st2).1 = .stream (uuid st2.ctr)
              ∧ uuid st2.ctr ≠ s
              ∧ lookupA (mcpGet env accept ah (some s) t st2).2.sessions
                  (uuid st2.ctr)
                  = some (.mcp { id := uuid st2.ctr, createdAt := t,
                                 lastAccessAt := t }))
          ∧ (∀ i, mcpPost env accept ah (some s) i st2 = (.badRequest, st2))
          ∧ mcpDelete env accept ah (some s) st2 = (.notFound, st2) := by
  obtain ⟨h1, h2, h3⟩ := invB_parts.mp hinv
  have hfi : FreshIdx st.ctr s := sessKeyOkB_eq_true.mp (allKeys_lookupA_some h1 hs)
  have hstruthy : truthyO (some s) = true :=
    truthyO_some_of_ne (freshIdx_ne_empty hfi)
  have htnone : lookupA st.transports s = none :=
    Option.isNone_iff_eq_none.mp (allKeys_lookupA_some h3 hs)
  have hdel : mcpDelete env accept ah (some s) st
      = (.terminated, { st with sessions := eraseA st.sessions s }) := by
    simp [mcpDelete, hauth, hstruthy, hs]
  have ga : lookupA (mcpDelete env accept ah (some s) st).2.sessions s = none := by
    rw [hdel]
    exact lookupA_eraseA_self _ _
  have gb : lookupA (mcpDelete env accept ah (some s) st).2.transports s = none := by
    rw [hdel]
    exact htnone
  have gc : FreshIdx (mcpDelete env accept ah (some s) st).2.ctr s := by
    rw [hdel]
    exact hfi
  refine ⟨by rw [hdel], ga, gb, ?_⟩
  intro reqs st2 hst2
  have g := gone_exec env accept ⟨ga, gb, gc⟩ reqs
  rw [← hst2] at g
  obtain ⟨g1, g2, g3⟩ := g
  refine ⟨g1, g2, ?_, ?_, ?_⟩
  · intro t
    have hgoc : getOrCreateSession (some s) t st2
        = (uuid st2.ctr,
           { st2 with
              sessions := setA st2.sessions (uuid st2.ctr)
                (.mcp { id := uuid st2.ctr, createdAt := t, lastAccessAt := t })
              ctr := st2.ctr + 1 }) := by
      unfold getOrCreateSession
      rw [if_neg (by simp [g1])]
    refine ⟨by simp [mcpGet, hauth, hgoc], Ne.symm (freshIdx_ne_uuid g3), ?_⟩
    simp only [mcpGet, hauth, hgoc]
    exact lookupA_setA_self _ _ _
  · intro i
    simp [mcpPost, hauth, g2, hstruthy]
  · simp [mcpDelete, hauth, g1]

/-- The state after an authenticated `GET /mcp` without a session header:
one session under `uuid 0`. -/
def stGetEx : ServerState := (mcpGet envEx acceptEx bTokEx none 0 initState).2

/-- C8 counterexample: create session `uuid 0` by GET, DELETE it, then POST
presenting it.  The claim says any later request presenting the deleted id
creates fresh session state; the POST instead is rejected 400 and the state is
exactly unchanged (both registries still empty) — nothing is created. -/
theorem deleted_session_post_rejected_not_fresh :
    (mcpDelete envEx acceptEx bTokEx (some (uuid 0)) stGetEx).1 = .terminated
      ∧ mcpPost envEx acceptEx bTokEx (some (uuid 0)) true
          (mcpDelete envEx acceptEx bTokEx (some (uuid 0)) stGetEx).2
          = (.badRequest,
             (mcpDelete envEx acceptEx bTokEx (some (uuid 0)) stGetEx).2)
      ∧ mcpPostStatus McpPostResult.badRequest = 400
      ∧ (mcpDelete envEx acceptEx bTokEx (some (uuid 0)) stGetEx).2.sessions = []
      ∧ (mcpDelete envEx acceptEx bTokEx (some (uuid 0)) stGetEx).2.transports = [] :=
  ⟨by decide, by decide, rfl, by decide, by decide⟩

/-- Witness for C8 (amended) at the concrete GET/DELETE trace. -/
theorem delete_session_not_resumable_witness :
    (mcpDelete envEx acceptEx bTokEx (some (uuid 0)) stGetEx).1 = .terminated
      ∧ lookupA (mcpDelete envEx acceptEx bTokEx (some (uuid 0)) stGetEx).2.sessions
          (uuid 0) = none
      ∧ (mcpGet envEx acceptEx bTokEx (some (uuid 0)) 7
          (mcpDelete envEx acceptEx bTokEx (some (uuid 0)) stGetEx).2).1
          = .stream (uuid 1)
      ∧ uuid 1 ≠ uuid 0
      ∧ mcpPost envEx acceptEx bTokEx (some (uuid 0)) true
          (mcpDelete envEx acceptEx bTokEx (some (uuid 0)) stGetEx).2
          = (.badRequest, (mcpDelete envEx acceptEx bTokEx (some (uuid 0)) stGetEx).2)
      ∧ mcpDelete envEx acceptEx bTokEx (some (uuid 0))
          (mcpDelete envEx acceptEx bTokEx (some (uuid 0)) stGetEx).2
          = (.notFound, (mcpDelete envEx acceptEx bTokEx (some (uuid 0)) stGetEx).2) := by
  obtain ⟨d1, d2, d3, d4⟩ :=
    delete_session_not_resumable envEx acceptEx stGetEx (uuid 0)
      (.mcp { id := uuid 0, createdAt := 0, lastAccessAt := 0 }) bTokEx "goodtok"
      (by decide) (by decide) (by decide)
  obtain ⟨g1, g2, g3, g4, g5⟩ :=
    d4 [] (mcpDelete envEx acceptEx bTokEx (some (uuid 0)) stGetEx).2 rfl
  obtain ⟨e1, e2, e3⟩ := g3 7
  exact ⟨d1, d2, e1, e2, g4 true, g5⟩

/-- C9: the claimed invariant — MCP session operations never read, refresh, or
delete a pending-authorization entry — fails on the code because both kinds of
entries share one map: after an authorize stores the pending entry under
`auth_`-key `k`, a `DELETE /mcp` presenting `k` as its session id deletes the
pending authorization (answering `Session terminated`), after which the
legitimate upstream callback fails with `invalid_state`; likewise a
`GET /mcp` presenting `k` reads and refreshes the pending entry and echoes `k`
as a session id. -/
theorem mcp_ops_touch_pending_auth :
    lookupA (oauthAuthorize envEx qAuthEx 0 initState).2.sessions (authKeyStr 0)
        = some (.pending pendingEx none)
      ∧ mcpDelete envEx acceptEx bTokEx (some (authKeyStr 0))
          (oauthAuthorize envEx qAuthEx 0 initState).2
          = (.terminated, { sessions := [], transports := [], ctr := 1 })
      ∧ oauthCallback cbEx { sessions := [], transports := [], ctr := 1 }
          = (.invalidState, { sessions := [], transports := [], ctr := 1 })
      ∧ (mcpGet envEx acceptEx bTokEx (some (authKeyStr 0)) 7
          (oauthAuthorize envEx qAuthEx 0 initState).2).1 = .stream (authKeyStr 0)
      ∧ lookupA (mcpGet envEx acceptEx bTokEx (some (authKeyStr 0)) 7
          (oauthAuthorize envEx qAuthEx 0 initState).2).2.sessions (authKeyStr 0)
          = some (.pending pendingEx (some 7)) :=
  ⟨by decide, by decide, by decide, by decide, by decide⟩

/-- C10: on an authenticated `GET /mcp`, an absent, falsy, or unknown
`Mcp-Session-Id` header is never an error: the handler responds 200 with a
brand-new session stored under the freshly generated UUID (never adopting the
presented id — the response id is the generator output), while a known id is
echoed back unchanged with its entry's `lastAccessAt` refreshed. -/
theorem mcp_get_creates_or_refreshes (env : Env) (accept : String → Bool)
    (ah hdr : Option String) (tok : String) (t : Nat) (st : ServerState)
    (hauth : requireAuth env accept ah = .ok tok) :
    ((truthyO hdr = false ∨ lookupA st.sessions (hdr.getD "") = none) →
        (mcpGet env accept ah hdr t st).1 = .stream (uuid st.ctr)
        ∧ mcpGetStatus (mcpGet env accept ah hdr t st).1 = 200
        ∧ lookupA (mcpGet env accept ah hdr t st).2.sessions (uuid st.ctr)
            = some (.mcp { id := uuid st.ctr, createdAt := t, lastAccessAt := t })
        ∧ (mcpGet env accept ah hdr t st).2.ctr = st.ctr + 1)
      ∧ (∀ h v, hdr = some h → lookupA st.sessions h = some v → h ≠ "" →
          (mcpGet env accept ah hdr t st).1 = .stream h
          ∧ mcpGetStatus (mcpGet env accept ah hdr t st).1 = 200
          ∧ (mcpGet env accept ah hdr t st).2.sessions
              = setA st.sessions h (refreshEntry v t)
          ∧ ∀ m, v = .mcp m → refreshEntry v t = .mcp { m with lastAccessAt := t }) := by
  constructor
  · intro hcase
    have hcond : ¬(truthyO hdr = true
        ∧ (lookupA st.sessions (hdr.getD "")).isSome = true) := by
      rcases hcase with hc | hc
      · simp [hc]
      · simp [hc]
    have hgoc : getOrCreateSession hdr t st
        = (uuid st.ctr,
           { st with
              sessions := setA st.sessions (uuid st.ctr)
                (.mcp { id := uuid st.ctr, createdAt := t, lastAccessAt := t })
              ctr := st.ctr + 1 }) := by
      unfold getOrCreateSession
      rw [if_neg hcond]
    refine ⟨by simp [mcpGet, hauth, hgoc], by simp [mcpGet, hauth, hgoc, mcpGetStatus],
      ?_, by simp [mcpGet, hauth, hgoc]⟩
    simp only [mcpGet, hauth, hgoc]
    exact lookupA_setA_self _ _ _
  · intro h v hh hlv hne
    subst hh
    have hgoc : getOrCreateSession (some h) t st
        = (h, { st with sessions := setA st.sessions h (refreshEntry v t) }) := by
      unfold getOrCreateSession
      rw [if_pos ⟨truthyO_some_of_ne hne, by simp [hlv]⟩]
      simp only [Option.getD_some]
      rw [hlv]
    refine ⟨by simp [mcpGet, hauth, hgoc],
      by simp [mcpGet, hauth, hgoc, mcpGetStatus],
      by simp [mcpGet, hauth, hgoc], ?_⟩
    intro m hm
    subst hm
    rfl

/-- Witness for C10: a fresh session minted on a header-less GET, and a
known-id GET echoing the id and refreshing `lastAccessAt`. -/
theorem mcp_get_creates_or_refreshes_witness :
    (mcpGet envEx acceptEx bTokEx none 3 initState).1 = .stream (uuid 0)
      ∧ mcpGetStatus (mcpGet envEx acceptEx bTokEx none 3 initState).1 = 200
      ∧ lookupA (mcpGet envEx acceptEx bTokEx none 3 initState).2.sessions (uuid 0)
          = some (.mcp { id := uuid 0, createdAt := 3, lastAccessAt := 3 })
      ∧ (mcpGet envEx acceptEx bTokEx (some (uuid 0)) 9 stGetEx).1 = .stream (uuid 0)
      ∧ (mcpGet envEx acceptEx bTokEx (some (uuid 0)) 9 stGetEx).2.sessions
          = setA stGetEx.sessions (uuid 0)
              (refreshEntry (.mcp { id := uuid 0, createdAt := 0, lastAccessAt := 0 }) 9) := by
  obtain ⟨pa, _⟩ := mcp_get_creates_or_refreshes envEx acceptEx bTokEx none
    "goodtok" 3 initState (by decide)
  obtain ⟨a1, a2, a3, _⟩ := pa (Or.inl rfl)
  obtain ⟨_, pb⟩ := mcp_get_creates_or_refreshes envEx acceptEx bTokEx
    (some (uuid 0)) "goodtok" 9 stGetEx (by decide)
  obtain ⟨b1, _, b3, _⟩ := pb (uuid 0)
    (.mcp { id := uuid 0, createdAt := 0, lastAccessAt := 0 }) rfl (by decide)
    (by decide)
  exact ⟨a1, a2, a3, b1, b3⟩

end HHMcp
